import Mathlib

/-!
Shallow embedding of the `jots` ledger service (`src/api/app.py`) and proofs
about its operations.

Modelling decisions:
* JSON request bodies are association lists of `JVal` values; `dget` models
  Python's `dict.get` (returning `none` for a missing key).  A body that is
  not a JSON object is `none` (as produced by `request.get_json(silent=True)`).
* `uuid.uuid4()` is modelled as an injective fresh-name source driven by a
  counter in the state; `iso_utc_now()` is modelled as a monotonic clock
  (a `Nat`) bumped at every event, so `created_at` values are strictly
  increasing in append order.
* A Python `AttributeError` escaping a handler (Flask answers 500) is the
  response `Resp.crash` with status 500.
* Python's `bool` is a subclass of `int`, so `isinstance(amount, int)`
  accepts booleans; `asPyInt` reflects that.
-/

namespace Jots

/-- JSON values that can appear in a request body. -/
inductive JVal where
  | str (s : String)
  | int (n : Int)
  | bool (b : Bool)
  | null
  deriving DecidableEq, Repr

/-- A JSON object body: association list of fields. -/
abbrev Dict := List (String × JVal)

/-- Python `data.get(k)`: the value of the first field named `k`, if any. -/
def dget (d : Dict) (k : String) : Option JVal :=
  (d.find? (fun p => p.1 == k)).map (fun p => p.2)

/-- `isinstance(v, int)` together with Python's int value of `v`
(booleans are ints in Python: `True = 1`, `False = 0`). -/
def asPyInt : Option JVal → Option Int
  | some (.int n) => some n
  | some (.bool b) => some (if b then 1 else 0)
  | _ => none

/-- Python `str(v)` of an optional body field (absent and JSON null are `None`). -/
def pyStr : Option JVal → String
  | none => "None"
  | some (.str s) => s
  | some (.int n) => toString n
  | some (.bool b) => if b then "True" else "False"
  | some .null => "None"

/-- Python's whitespace class for `str.strip()`: space, tab, newline,
carriage return, vertical tab, form feed. -/
def isPySpace (c : Char) : Bool :=
  c = ' ' || c = '\t' || c = '\n' || c = '\r' || c.toNat = 11 || c.toNat = 12

/-- Python `s.strip()`: remove leading and trailing whitespace. -/
def pyStrip (s : String) : String :=
  String.mk (((s.data.dropWhile isPySpace).reverse.dropWhile isPySpace).reverse)

/-- Python `c in s` for a one-character needle. -/
def pyContains (s : String) (c : Char) : Bool :=
  s.data.contains c

/-- Value of a nonempty list of decimal digits, `none` on a non-digit. -/
def digitsVal (acc : Nat) : List Char → Option Nat
  | [] => some acc
  | c :: cs => if c.isDigit then digitsVal (acc * 10 + (c.toNat - 48)) cs else none

/-- Python `int(s)` on a string: optional surrounding whitespace, optional
sign, then decimal digits; `none` models the `ValueError` branch. -/
def pyToInt? (s : String) : Option Int :=
  match (pyStrip s).data with
  | [] => none
  | '-' :: [] => none
  | '-' :: c :: cs => (digitsVal 0 (c :: cs)).map (fun n => -(n : Int))
  | '+' :: [] => none
  | '+' :: c :: cs => (digitsVal 0 (c :: cs)).map (fun n => (n : Int))
  | cs => (digitsVal 0 cs).map (fun n => (n : Int))

/-- `uuid.uuid4()` modelled as an injective function of the state's counter. -/
def uuid (n : Nat) : String :=
  String.mk (List.replicate (n + 1) 'u')

/-- A customer record (an entry of the `CUSTOMERS` dict). -/
structure Customer where
  id : String
  name : String
  email : String
  created_at : Nat
  balance : Int
  deriving DecidableEq, Repr

/-- A transaction record (an entry of the `TRANSACTIONS` list).
The source stores the raw `data.get("description")` value, so the
description is an arbitrary JSON value or `None`. -/
structure Txn where
  id : String
  customer_id : String
  kind : String
  amount : Int
  description : Option JVal
  balance_after : Int
  related_id : Option String
  created_at : Nat
  deriving DecidableEq, Repr

/-- A charge object (an entry of the `CHARGES` dict). -/
structure Charge where
  id : String
  customer_id : String
  amount : Int
  description : Option JVal
  created_at : Nat
  status : String
  deriving DecidableEq, Repr

/-- A JSON response body. -/
inductive Resp where
  | customer (c : Customer)
  | customers (cs : List Customer)
  | charge (ch : Charge)
  | txns (ts : List Txn)
  | error (etype : String) (msg : String)
  | replay (body : Resp) (status : Nat)
  | crash
  deriving DecidableEq, Repr

/-- An HTTP result: response body plus status code. -/
structure HttpResult where
  body : Resp
  status : Nat
  deriving DecidableEq, Repr

/-- An entry of the `IDEMPOTENCY_STORE` dict. -/
structure IdemEntry where
  body : Resp
  status_code : Nat
  deriving DecidableEq, Repr

/-- The global mutable state of `app.py`: the four module-level dicts/lists,
plus the fresh-id counter and the clock driving `uuid4` / `iso_utc_now`. -/
structure State where
  customers : List Customer
  charges : List Charge
  transactions : List Txn
  idem : List (String × IdemEntry)
  nextId : Nat
  clock : Nat
  deriving DecidableEq, Repr

/-- The state at process start: all four stores empty. -/
def startState : State := ⟨[], [], [], [], 0, 0⟩

/-- Outcome of `validate_customer_payload`: valid, invalid with a message, or
an uncaught `AttributeError` (the source evaluates `email.strip()` when
`email` is not a string, because its condition uses `and` where the parallel
name check uses `or`). -/
inductive CVal where
  | ok
  | invalid (msg : String)
  | raise
  deriving DecidableEq, Repr

/-- `not isinstance(name, str) or not name.strip()`. -/
def nameBad : Option JVal → Bool
  | some (.str s) => pyStrip s == ""
  | _ => true

/-- `validate_customer_payload` from `src/api/app.py`. -/
def validate_customer_payload (data : Option Dict) : CVal :=
  match data with
  | none => .invalid "Request body must be a JSON object."
  | some d =>
    if nameBad (dget d "name") then
      .invalid "Name is required and must be a non-empty string."
    else
      match dget d "email" with
      | some (.str e) =>
        if ¬ pyContains e '@' then .invalid "Email must contain '@'." else .ok
      | _ => .raise

/-- `validate_add_funds_payload` from `src/api/app.py`:
`none` means valid, `some msg` carries the error message. -/
def validate_add_funds_payload (data : Option Dict) : Option String :=
  match data with
  | none => some "Request body must be a JSON object."
  | some d =>
    match asPyInt (dget d "amount") with
    | none => some "Amount is required, must to be an integer and must be greater than 0."
    | some a =>
      if a ≤ 0 then
        some "Amount is required, must to be an integer and must be greater than 0."
      else
        match dget d "description" with
        | none => none
        | some .null => none
        | some (.str t) =>
          if pyStrip t == "" then some "Description must be non-empty string." else none
        | some _ => some "Description must be non-empty string."

/-- The string field `k` of a validated body (used after validation succeeded). -/
def dgetStr (data : Option Dict) (k : String) : String :=
  match data with
  | some d =>
    match dget d k with
    | some (.str s) => s
    | _ => ""
  | none => ""

/-- `data.get("description")` as stored by the handlers: absent and JSON null
both become Python `None`. -/
def dgetDesc (data : Option Dict) : Option JVal :=
  match data with
  | some d =>
    match dget d "description" with
    | some .null => none
    | v => v
  | none => none

/-- `check_idempotency` from `src/api/app.py`.  It reads the header named
`Idempotency` (not `Idempotency-Key`), and on a hit returns
`jsonify(entry["body"], entry["status_code"])` — a two-argument `jsonify`,
i.e. a JSON array of body and stored status, served with HTTP status 200. -/
def check_idempotency (s : State) (idemHdr : Option String) : Option HttpResult :=
  match idemHdr with
  | none => none
  | some k =>
    if k = "" then none
    else
      match (s.idem.find? (fun p => p.1 == k)).map (fun p => p.2) with
      | none => none
      | some e => some ⟨.replay e.body e.status_code, 200⟩

/-- `store_idempotent_response` from `src/api/app.py`.  It reads the header
named `Idempotency-Key`.  No handler ever calls it. -/
def store_idempotent_response (s : State) (idemKeyHdr : Option String)
    (body : Resp) (status : Nat) : State :=
  match idemKeyHdr with
  | none => s
  | some k =>
    if k = "" then s
    else {s with idem := s.idem ++ [(k, ⟨body, status⟩)]}

/-- `record_transaction` from `src/api/app.py`: assigns a fresh id and
timestamp and appends to `TRANSACTIONS`. -/
def record_transaction (s : State) (cid kind : String) (amount balance_after : Int)
    (description : Option JVal) (related_id : Option String) : State × Txn :=
  let t : Txn := ⟨uuid s.nextId, cid, kind, amount, description, balance_after,
    related_id, s.clock⟩
  ({s with transactions := s.transactions ++ [t],
           nextId := s.nextId + 1, clock := s.clock + 1}, t)

/-- In-place update `customer["balance"] += delta` of the customer stored
under key `cid` in the `CUSTOMERS` dict. -/
def mutate_balance (s : State) (cid : String) (delta : Int) : State :=
  {s with customers :=
    s.customers.map (fun c => if c.id = cid then {c with balance := c.balance + delta} else c)}

/-- A request to `POST /customers`.  The handler never consults the
idempotency headers, so only the body matters. -/
structure CreateReq where
  body : Option Dict
  deriving DecidableEq, Repr

/-- A request to `POST /customers/<customer_id>/credit`.  `idemHdr` is the
`Idempotency` header (read by `check_idempotency`); `idemKeyHdr` is the
`Idempotency-Key` header (read only by the never-called
`store_idempotent_response`). -/
structure CreditReq where
  customer_id : String
  body : Option Dict
  idemHdr : Option String
  idemKeyHdr : Option String
  deriving DecidableEq, Repr

/-- A request to `POST /charges`. -/
structure ChargeReq where
  body : Option Dict
  idemHdr : Option String
  idemKeyHdr : Option String
  deriving DecidableEq, Repr

/-- A request to `GET /customers/<customer_id>/transactions` with its raw
`limit` query parameter. -/
structure ListReq where
  customer_id : String
  limit : Option String
  deriving DecidableEq, Repr

/-- The `create_customer` handler. -/
def create_customer (s : State) (r : CreateReq) : State × HttpResult :=
  match validate_customer_payload r.body with
  | .invalid msg => (s, ⟨.error "invalid_request" msg, 400⟩)
  | .raise => (s, ⟨.crash, 500⟩)
  | .ok =>
    let c : Customer := ⟨uuid s.nextId, pyStrip (dgetStr r.body "name"),
      pyStrip (dgetStr r.body "email"), s.clock, 0⟩
    ({s with customers := s.customers ++ [c],
             nextId := s.nextId + 1, clock := s.clock + 1},
     ⟨.customer c, 201⟩)

/-- The `credit_customer` handler.  Note that it never calls
`store_idempotent_response`. -/
def credit_customer (s : State) (r : CreditReq) : State × HttpResult :=
  match check_idempotency s r.idemHdr with
  | some resp => (s, resp)
  | none =>
    match s.customers.find? (fun c => c.id == r.customer_id) with
    | none =>
      (s, ⟨.error "not_found" ("Customer with " ++ r.customer_id ++ " not found."), 404⟩)
    | some c =>
      match validate_add_funds_payload r.body with
      | some msg => (s, ⟨.error "invalid_request" msg, 400⟩)
      | none =>
        let amount := (asPyInt (r.body.bind (fun d => dget d "amount"))).getD 0
        let s1 := mutate_balance s r.customer_id amount
        let balance_after := c.balance + amount
        let s2 := (record_transaction s1 r.customer_id "credit" amount balance_after
          (dgetDesc r.body) none).1
        (s2, ⟨.customer {c with balance := balance_after}, 200⟩)

/-- The `create_charge` handler.  Note that it never calls
`store_idempotent_response`. -/
def create_charge (s : State) (r : ChargeReq) : State × HttpResult :=
  match check_idempotency s r.idemHdr with
  | some resp => (s, resp)
  | none =>
    match r.body with
    | none => (s, ⟨.error "invalid_request" "Request body must be a JSON object.", 400⟩)
    | some d =>
      match dget d "customer_id" with
      | some (.str cid) =>
        match s.customers.find? (fun c => c.id == cid) with
        | none =>
          (s, ⟨.error "not_found" ("Customer with " ++ cid ++ " not found."), 404⟩)
        | some c =>
          match asPyInt (dget d "amount") with
          | none => (s, ⟨.error "invalid_request" "Amount must be a non-negative integer.", 400⟩)
          | some a =>
            if a ≤ 0 then
              (s, ⟨.error "invalid_request" "Amount must be a non-negative integer.", 400⟩)
            else if c.balance < a then
              (s, ⟨.error "insufficient_funds" "Amount exceeds customer's balance.", 400⟩)
            else
              let s1 := mutate_balance s cid (-a)
              let balance_after := c.balance - a
              let ch : Charge := ⟨uuid s1.nextId, cid, a, dgetDesc (some d), s1.clock, "succeeded"⟩
              let s2 := {s1 with charges := s1.charges ++ [ch],
                                 nextId := s1.nextId + 1, clock := s1.clock + 1}
              let s3 := (record_transaction s2 cid "charge" a balance_after
                (dgetDesc (some d)) (some ch.id)).1
              (s3, ⟨.charge ch, 201⟩)
      | v =>
        (s, ⟨.error "not_found" ("Customer with " ++ pyStr v ++ " not found."), 404⟩)

/-- Insert a record in front of the first element whose `created_at` is not
larger, keeping earlier-inserted records first on ties. -/
def insertDesc (t : Txn) : List Txn → List Txn
  | [] => [t]
  | u :: us => if u.created_at ≤ t.created_at then t :: u :: us else u :: insertDesc t us

/-- Python's stable `list.sort(key=lambda t: t["created_at"], reverse=True)`:
descending by `created_at`, ties kept in original order. -/
def sortDesc : List Txn → List Txn
  | [] => []
  | t :: ts => insertDesc t (sortDesc ts)

/-- The `list_customer_transactions` handler.  `.sort(key=..., reverse=True)`
is a stable descending sort by `created_at`; the slice `customer_txns[:limit]`
on the source's line 397 is computed but its result is discarded, so the
response carries the whole sorted list. -/
def list_customer_transactions (s : State) (r : ListReq) : State × HttpResult :=
  match s.customers.find? (fun c => c.id == r.customer_id) with
  | none =>
    (s, ⟨.error "not_found" ("Customer with " ++ r.customer_id ++ " not found."), 404⟩)
  | some _ =>
    match (match r.limit with | none => some (50 : Int) | some p => pyToInt? p) with
    | none => (s, ⟨.error "invalid_request" "Limit must be an integer.", 400⟩)
    | some lim =>
      if lim ≤ 0 then (s, ⟨.error "invalid_request" "Limit must be positive.", 400⟩)
      else
        let customer_txns := sortDesc
          (s.transactions.filter (fun t => t.customer_id == r.customer_id))
        let _truncated := customer_txns.take lim.toNat
        (s, ⟨.txns customer_txns, 200⟩)

/-- One request to any of the four service operations. -/
inductive Req where
  | create (r : CreateReq)
  | credit (r : CreditReq)
  | charge (r : ChargeReq)
  | list (r : ListReq)
  deriving DecidableEq, Repr

/-- Dispatch one request to its handler. -/
def stepOp (s : State) : Req → State × HttpResult
  | .create r => create_customer s r
  | .credit r => credit_customer s r
  | .charge r => create_charge s r
  | .list r => list_customer_transactions s r

/-- States reachable from process start by a sequence of requests. -/
inductive Reachable : State → Prop where
  | base : Reachable startState
  | next (s : State) (r : Req) : Reachable s → Reachable (stepOp s r).1

/-! ### Ledger accounting -/

/-- The signed effect of a transaction record on the balance. -/
def signedAmount (t : Txn) : Int :=
  if t.kind = "credit" then t.amount else -t.amount

/-- Sum of the amounts of the credit records of customer `cid`. -/
def creditSum (ts : List Txn) (cid : String) : Int :=
  ((ts.filter (fun t => t.customer_id == cid && t.kind == "credit")).map Txn.amount).sum

/-- Sum of the amounts of the charge records of customer `cid`. -/
def chargeSum (ts : List Txn) (cid : String) : Int :=
  ((ts.filter (fun t => t.customer_id == cid && t.kind == "charge")).map Txn.amount).sum

/-- The records of customer `cid`, in append order. -/
def txnsOf (ts : List Txn) (cid : String) : List Txn :=
  ts.filter (fun t => t.customer_id == cid)

/-- Replaying the signed amounts from balance `b` reproduces every
`balance_after` value of the list. -/
def chainOk (b : Int) : List Txn → Bool
  | [] => true
  | t :: ts => (t.balance_after == b + signedAmount t) && chainOk t.balance_after ts

/-- The running balance after replaying the list from balance `b`:
the last `balance_after`, or `b` if the list is empty. -/
def lastBal (b : Int) : List Txn → Int
  | [] => b
  | t :: ts => lastBal t.balance_after ts

/-! ### Concrete scenario states and claim-side vocabulary -/

/-- The invariant maintained by every operation of the service. -/
structure Inv (s : State) : Prop where
  idem_empty : s.idem = []
  cust_fresh : ∀ c ∈ s.customers, ∃ k, k < s.nextId ∧ c.id = uuid k
  ids_nodup : (s.customers.map Customer.id).Nodup
  txn_owner : ∀ t ∈ s.transactions, ∃ c ∈ s.customers, t.customer_id = c.id
  balance_eq : ∀ c ∈ s.customers,
    c.balance = creditSum s.transactions c.id - chargeSum s.transactions c.id
  balance_nonneg : ∀ c ∈ s.customers, 0 ≤ c.balance
  chain : ∀ c ∈ s.customers, chainOk 0 (txnsOf s.transactions c.id) = true
  lastb : ∀ c ∈ s.customers, lastBal 0 (txnsOf s.transactions c.id) = c.balance
  times_lt : ∀ t ∈ s.transactions, t.created_at < s.clock
  times_sorted : s.transactions.Pairwise (fun a b => a.created_at < b.created_at)

/-- `POST /customers` with Ada's data. -/
def reqAda : CreateReq := ⟨some [("name", .str "Ada"), ("email", .str "ada@example.com")]⟩

/-- State after creating Ada. -/
def sA : State := (stepOp startState (.create reqAda)).1

/-- A credit of 5000 to Ada, no idempotency headers. -/
def reqCredit5000 : CreditReq := ⟨uuid 0, some [("amount", .int 5000)], none, none⟩

/-- State after crediting Ada 5000. -/
def sB : State := (stepOp sA (.credit reqCredit5000)).1

/-- A further credit of 2000 to Ada. -/
def reqCredit2000 : CreditReq := ⟨uuid 0, some [("amount", .int 2000)], none, none⟩

/-- State after the second credit: two ledger records. -/
def sC : State := (stepOp sB (.credit reqCredit2000)).1

/-- Ada's record in `sB`. -/
def adaB : Customer := ⟨uuid 0, "Ada", "ada@example.com", 0, 5000⟩

/-- Ada's record in `sC`. -/
def adaC : Customer := ⟨uuid 0, "Ada", "ada@example.com", 0, 7000⟩

/-- The same credit request carrying `idem-1` in both the `Idempotency` and
the `Idempotency-Key` header. -/
def reqCreditIdem : CreditReq := ⟨uuid 0, some [("amount", .int 5000)], some "idem-1", some "idem-1"⟩

/-- State after the first idempotent credit. -/
def sFirst : State := (credit_customer sA reqCreditIdem).1

/-- A credit of 5000 carrying an `Idempotency-Key` header. -/
def reqCredit5000K : CreditReq := ⟨uuid 0, some [("amount", .int 5000)], none, some "idem-1"⟩

/-- The length of a transaction-list response body. -/
def respListLength : Resp → Nat
  | .txns l => l.length
  | _ => 0

/-- `GET .../transactions?limit=1`. -/
def reqList1 : ListReq := ⟨uuid 0, some "1"⟩

/-- `POST /customers` with no email field. -/
def reqNoEmail : CreateReq := ⟨some [("name", .str "Ada")]⟩

/-- A credit whose description field is present and null. -/
def reqCreditNullDesc : CreditReq :=
  ⟨uuid 0, some [("amount", .int 5), ("description", .null)], none, none⟩

/-- A charge of 6000 against Ada, whose balance in `sB` is 5000. -/
def reqCharge6000 : ChargeReq :=
  ⟨some [("customer_id", .str (uuid 0)), ("amount", .int 6000)], none, none⟩

/-- A charge of 2000 against Ada, whose balance in `sB` is 5000. -/
def reqCharge2000 : ChargeReq :=
  ⟨some [("customer_id", .str (uuid 0)), ("amount", .int 2000),
    ("description", .str "coffee")], none, none⟩

/-- The description values the credit validator rejects: present, not null,
and either not a string or a whitespace-only string. -/
def bad_description : JVal → Bool
  | .str t => pyStrip t == ""
  | .null => false
  | _ => true

/-- A credit whose description field is the integer 7. -/
def reqCreditIntDesc : CreditReq :=
  ⟨uuid 0, some [("amount", .int 5), ("description", .int 7)], none, none⟩

/-- The customer id string a charge request targets (empty when the body has
no string `customer_id` field, in which case the lookup fails and no
customer is touched). -/
def charge_target (r : ChargeReq) : String :=
  match r.body with
  | some d =>
    match dget d "customer_id" with
    | some (.str cid) => cid
    | _ => ""
  | none => ""

theorem creditSum_append (ts : List Txn) (t : Txn) (cid : String) :
    creditSum (ts ++ [t]) cid
      = creditSum ts cid
        + (if t.customer_id = cid ∧ t.kind = "credit" then t.amount else 0) := by
  by_cases h1 : t.customer_id = cid <;> by_cases h2 : t.kind = "credit" <;>
    simp [creditSum, List.filter_append, h1, h2]

theorem chargeSum_append (ts : List Txn) (t : Txn) (cid : String) :
    chargeSum (ts ++ [t]) cid
      = chargeSum ts cid
        + (if t.customer_id = cid ∧ t.kind = "charge" then t.amount else 0) := by
  by_cases h1 : t.customer_id = cid <;> by_cases h2 : t.kind = "charge" <;>
    simp [chargeSum, List.filter_append, h1, h2]

theorem txnsOf_append (ts : List Txn) (t : Txn) (cid : String) :
    txnsOf (ts ++ [t]) cid
      = txnsOf ts cid ++ (if t.customer_id = cid then [t] else []) := by
  by_cases h1 : t.customer_id = cid <;> simp [txnsOf, List.filter_append, h1]

theorem lastBal_append (l : List Txn) (t : Txn) (b : Int) :
    lastBal b (l ++ [t]) = t.balance_after := by
  induction l generalizing b with
  | nil => rfl
  | cons u l ih => simpa [lastBal] using ih u.balance_after

theorem chainOk_append (l : List Txn) (t : Txn) (b : Int) :
    chainOk b (l ++ [t])
      = (chainOk b l && (t.balance_after == lastBal b l + signedAmount t)) := by
  induction l generalizing b with
  | nil => simp [chainOk, lastBal]
  | cons u l ih => simp [chainOk, lastBal, ih u.balance_after, Bool.and_assoc]

theorem creditSum_nil (cid : String) : creditSum [] cid = 0 := rfl

theorem chargeSum_nil (cid : String) : chargeSum [] cid = 0 := rfl

theorem creditSum_eq_zero {ts : List Txn} {cid : String}
    (h : ∀ t ∈ ts, t.customer_id ≠ cid) : creditSum ts cid = 0 := by
  have : ts.filter (fun t => t.customer_id == cid && t.kind == "credit") = [] := by
    rw [List.filter_eq_nil_iff]
    intro t ht
    simp [h t ht]
  simp [creditSum, this]

theorem chargeSum_eq_zero {ts : List Txn} {cid : String}
    (h : ∀ t ∈ ts, t.customer_id ≠ cid) : chargeSum ts cid = 0 := by
  have : ts.filter (fun t => t.customer_id == cid && t.kind == "charge") = [] := by
    rw [List.filter_eq_nil_iff]
    intro t ht
    simp [h t ht]
  simp [chargeSum, this]

theorem txnsOf_eq_nil {ts : List Txn} {cid : String}
    (h : ∀ t ∈ ts, t.customer_id ≠ cid) : txnsOf ts cid = [] := by
  rw [txnsOf, List.filter_eq_nil_iff]
  intro t ht
  simp [h t ht]

/-! ### Freshness of generated ids -/

theorem uuid_inj {m n : Nat} (h : uuid m = uuid n) : m = n := by
  have hlen : m + 1 = n + 1 := by
    simpa [uuid] using congrArg (fun s => s.data.length) h
  omega

/-! ### The global invariant -/

theorem inv_startState : Inv startState := by
  constructor <;> simp [startState]

/-- With an empty `IDEMPOTENCY_STORE`, the replay check never fires. -/
theorem check_idempotency_none {s : State} (h : s.idem = []) (hdr : Option String) :
    check_idempotency s hdr = none := by
  cases hdr with
  | none => rfl
  | some k => simp [check_idempotency, h]

/-- Properties of a successful `CUSTOMERS` lookup. -/
theorem find?_customer {l : List Customer} {cid : String} {c : Customer}
    (h : l.find? (fun c => c.id == cid) = some c) : c ∈ l ∧ c.id = cid :=
  ⟨List.mem_of_find?_eq_some h, by simpa using List.find?_some h⟩

/-- A payload accepted by `validate_add_funds_payload` is a JSON object whose
`amount` field is a positive Python int. -/
theorem valid_funds_amount {data : Option Dict}
    (h : validate_add_funds_payload data = none) :
    ∃ d, data = some d ∧ ∃ a, asPyInt (dget d "amount") = some a ∧ 0 < a := by
  cases data with
  | none => simp [validate_add_funds_payload] at h
  | some d =>
    refine ⟨d, rfl, ?_⟩
    rw [validate_add_funds_payload] at h
    cases hA : asPyInt (dget d "amount") with
    | none => rw [hA] at h; simp at h
    | some a =>
      rw [hA] at h
      by_cases ha : a ≤ 0
      · simp [ha] at h
      · exact ⟨a, rfl, by omega⟩

theorem inv_append_customer {s : State} (h : Inv s) (name email : String) :
    Inv {s with customers := s.customers ++ [⟨uuid s.nextId, name, email, s.clock, 0⟩],
                nextId := s.nextId + 1, clock := s.clock + 1} := by
  set c : Customer := ⟨uuid s.nextId, name, email, s.clock, 0⟩ with hc
  show Inv {s with customers := s.customers ++ [c],
                   nextId := s.nextId + 1, clock := s.clock + 1}
  · have hfreshid : ∀ x ∈ s.customers, x.id ≠ c.id := by
      intro x hx
      obtain ⟨k, hk, hkid⟩ := h.cust_fresh x hx
      rw [hkid, hc]
      intro heq
      exact absurd (uuid_inj heq) (by omega)
    have hnotxn : ∀ t ∈ s.transactions, t.customer_id ≠ c.id := by
      intro t ht
      obtain ⟨x, hx, hxid⟩ := h.txn_owner t ht
      rw [hxid]
      exact hfreshid x hx
    constructor
    · exact h.idem_empty
    · intro x hx
      rcases List.mem_append.mp hx with hx | hx
      · obtain ⟨k, hk, hkid⟩ := h.cust_fresh x hx
        refine ⟨k, ?_, hkid⟩
        show k < s.nextId + 1
        omega
      · rw [List.mem_singleton.mp hx]
        refine ⟨s.nextId, ?_, rfl⟩
        show s.nextId < s.nextId + 1
        omega
    · rw [List.map_append]
      refine h.ids_nodup.append (List.nodup_singleton _) ?_
      intro y hy hy'
      obtain ⟨x, hx, hxy⟩ := List.mem_map.mp hy
      rw [List.mem_singleton.mp hy'] at hxy
      exact hfreshid x hx hxy
    · intro t ht
      obtain ⟨x, hx, hxid⟩ := h.txn_owner t ht
      exact ⟨x, List.mem_append_left _ hx, hxid⟩
    · intro x hx
      rcases List.mem_append.mp hx with hx | hx
      · exact h.balance_eq x hx
      · rw [List.mem_singleton.mp hx]
        show (0 : Int) = creditSum s.transactions c.id - chargeSum s.transactions c.id
        rw [creditSum_eq_zero hnotxn, chargeSum_eq_zero hnotxn]
        ring
    · intro x hx
      rcases List.mem_append.mp hx with hx | hx
      · exact h.balance_nonneg x hx
      · rw [List.mem_singleton.mp hx]
    · intro x hx
      rcases List.mem_append.mp hx with hx | hx
      · exact h.chain x hx
      · rw [List.mem_singleton.mp hx]
        show chainOk 0 (txnsOf s.transactions c.id) = true
        rw [txnsOf_eq_nil hnotxn]
        rfl
    · intro x hx
      rcases List.mem_append.mp hx with hx | hx
      · exact h.lastb x hx
      · rw [List.mem_singleton.mp hx]
        show lastBal 0 (txnsOf s.transactions c.id) = (0 : Int)
        rw [txnsOf_eq_nil hnotxn]
        rfl
    · intro t ht
      have := h.times_lt t ht
      show t.created_at < s.clock + 1
      omega
    · exact h.times_sorted

/-- Preservation of the invariant by a balance mutation of customer `cid`
combined with the append of a matching transaction record. -/
theorem inv_mutate_append {s : State} (h : Inv s) {c : Customer} {cid : String}
    (hc : c ∈ s.customers) (hcid : c.id = cid)
    {delta : Int} (hnn : 0 ≤ c.balance + delta)
    {t : Txn} (htc : t.customer_id = cid)
    (hkind : t.kind = "credit" ∨ t.kind = "charge")
    (hts : signedAmount t = delta)
    (htb : t.balance_after = c.balance + delta)
    {chs : List Charge} {n2 c2 : Nat}
    (hn2 : s.nextId ≤ n2)
    (htt : s.clock ≤ t.created_at) (htt2 : t.created_at < c2) :
    Inv {s with
      customers := s.customers.map
        (fun x => if x.id = cid then {x with balance := x.balance + delta} else x),
      charges := chs,
      transactions := s.transactions ++ [t],
      nextId := n2, clock := c2} := by
  set f := fun x : Customer => if x.id = cid then {x with balance := x.balance + delta} else x
    with hf
  have hfid : ∀ x : Customer, (f x).id = x.id := by
    intro x
    rw [hf]
    by_cases hx : x.id = cid <;> simp [hx]
  have hfbal : ∀ x : Customer, x.id = cid → (f x).balance = x.balance + delta := by
    intro x hx
    rw [hf]
    simp [hx]
  have hfother : ∀ x : Customer, x.id ≠ cid → f x = x := by
    intro x hx
    rw [hf]
    simp [hx]
  have huniq : ∀ x ∈ s.customers, x.id = cid → x = c := by
    intro x hx hxid
    exact List.inj_on_of_nodup_map h.ids_nodup hx hc (by rw [hxid, hcid])
  have hsum : creditSum (s.transactions ++ [t]) cid - chargeSum (s.transactions ++ [t]) cid
      = creditSum s.transactions cid - chargeSum s.transactions cid + delta := by
    rw [creditSum_append, chargeSum_append]
    rcases hkind with hk | hk
    · rw [signedAmount, if_pos hk] at hts
      rw [if_pos ⟨htc, hk⟩,
        if_neg (by rintro ⟨h1, h2⟩; rw [hk] at h2; exact absurd h2 (by decide))]
      rw [hts]
      ring
    · rw [signedAmount, if_neg (by rw [hk]; decide)] at hts
      rw [if_neg (by rintro ⟨h1, h2⟩; rw [hk] at h2; exact absurd h2 (by decide)),
        if_pos ⟨htc, hk⟩]
      rw [← hts]
      ring
  have htxnsOf_cid : txnsOf (s.transactions ++ [t]) cid = txnsOf s.transactions cid ++ [t] := by
    rw [txnsOf_append, if_pos htc]
  have htxnsOf_other : ∀ cid2, cid2 ≠ cid →
      txnsOf (s.transactions ++ [t]) cid2 = txnsOf s.transactions cid2 := by
    intro cid2 hne
    rw [txnsOf_append, if_neg (by intro hh; rw [htc] at hh; exact hne hh.symm)]
    simp
  have hcredit_other : ∀ cid2, cid2 ≠ cid →
      creditSum (s.transactions ++ [t]) cid2 = creditSum s.transactions cid2 := by
    intro cid2 hne
    rw [creditSum_append, if_neg (by rintro ⟨h1, h2⟩; rw [htc] at h1; exact hne h1.symm)]
    ring
  have hcharge_other : ∀ cid2, cid2 ≠ cid →
      chargeSum (s.transactions ++ [t]) cid2 = chargeSum s.transactions cid2 := by
    intro cid2 hne
    rw [chargeSum_append, if_neg (by rintro ⟨h1, h2⟩; rw [htc] at h1; exact hne h1.symm)]
    ring
  constructor
  · exact h.idem_empty
  · intro x' hx'
    obtain ⟨x, hx, rfl⟩ := List.mem_map.mp hx'
    obtain ⟨k, hk, hkid⟩ := h.cust_fresh x hx
    refine ⟨k, ?_, by rw [hfid]; exact hkid⟩
    show k < n2
    omega
  · show ((s.customers.map f).map Customer.id).Nodup
    rw [List.map_map]
    have hcomp : Customer.id ∘ f = Customer.id := funext hfid
    rw [hcomp]
    exact h.ids_nodup
  · intro u hu
    rcases List.mem_append.mp hu with hu | hu
    · obtain ⟨x, hx, hxid⟩ := h.txn_owner u hu
      exact ⟨f x, List.mem_map_of_mem f hx, by rw [hfid]; exact hxid⟩
    · rw [List.mem_singleton.mp hu]
      exact ⟨f c, List.mem_map_of_mem f hc, by rw [hfid, htc, hcid]⟩
  · intro x' hx'
    obtain ⟨x, hx, rfl⟩ := List.mem_map.mp hx'
    show (f x).balance
      = creditSum (s.transactions ++ [t]) (f x).id - chargeSum (s.transactions ++ [t]) (f x).id
    by_cases hxid : x.id = cid
    · have heq := h.balance_eq x hx
      rw [hxid] at heq
      rw [hfbal x hxid, hfid, hxid]
      omega
    · rw [hfother x hxid, hcredit_other x.id hxid, hcharge_other x.id hxid]
      exact h.balance_eq x hx
  · intro x' hx'
    obtain ⟨x, hx, rfl⟩ := List.mem_map.mp hx'
    by_cases hxid : x.id = cid
    · have hxc := huniq x hx hxid
      rw [hfbal x hxid, hxc]
      exact hnn
    · rw [hfother x hxid]
      exact h.balance_nonneg x hx
  · intro x' hx'
    obtain ⟨x, hx, rfl⟩ := List.mem_map.mp hx'
    show chainOk 0 (txnsOf (s.transactions ++ [t]) (f x).id) = true
    by_cases hxid : x.id = cid
    · rw [hfid, hxid, htxnsOf_cid, chainOk_append]
      have h1 : chainOk 0 (txnsOf s.transactions cid) = true := by
        rw [← hcid]
        exact h.chain c hc
      have h2 : lastBal 0 (txnsOf s.transactions cid) = c.balance := by
        rw [← hcid]
        exact h.lastb c hc
      rw [h1, h2, htb, hts]
      simp
    · rw [hfother x hxid, htxnsOf_other x.id hxid]
      exact h.chain x hx
  · intro x' hx'
    obtain ⟨x, hx, rfl⟩ := List.mem_map.mp hx'
    show lastBal 0 (txnsOf (s.transactions ++ [t]) (f x).id) = (f x).balance
    by_cases hxid : x.id = cid
    · have hxc := huniq x hx hxid
      rw [hfid, hxid, htxnsOf_cid, lastBal_append, htb, hfbal x hxid, hxc]
    · rw [hfother x hxid, htxnsOf_other x.id hxid]
      exact h.lastb x hx
  · intro u hu
    show u.created_at < c2
    rcases List.mem_append.mp hu with hu | hu
    · have := h.times_lt u hu
      omega
    · rw [List.mem_singleton.mp hu]
      exact htt2
  · show (s.transactions ++ [t]).Pairwise (fun a b => a.created_at < b.created_at)
    rw [List.pairwise_append]
    refine ⟨h.times_sorted, by simp, ?_⟩
    intro u hu v hv
    rw [List.mem_singleton.mp hv]
    have := h.times_lt u hu
    omega

theorem inv_create_customer {s : State} (h : Inv s) (r : CreateReq) :
    Inv (create_customer s r).1 := by
  rw [create_customer]
  cases hv : validate_customer_payload r.body with
  | invalid msg => exact h
  | raise => exact h
  | ok => exact inv_append_customer h _ _

theorem inv_credit_customer {s : State} (h : Inv s) (r : CreditReq) :
    Inv (credit_customer s r).1 := by
  rw [credit_customer, check_idempotency_none h.idem_empty]
  cases hfind : s.customers.find? (fun c => c.id == r.customer_id) with
  | none => exact h
  | some c =>
    cases hval : validate_add_funds_payload r.body with
    | some msg => exact h
    | none =>
      obtain ⟨hcmem, hcid⟩ := find?_customer hfind
      obtain ⟨d, hd, a, ha, hpos⟩ := valid_funds_amount hval
      have hkey : (asPyInt (r.body.bind (fun d => dget d "amount"))).getD 0 = a := by
        rw [hd]
        show (asPyInt (dget d "amount")).getD 0 = a
        rw [ha]
        rfl
      show Inv ((record_transaction
        (mutate_balance s r.customer_id
          ((asPyInt (r.body.bind (fun d => dget d "amount"))).getD 0))
        r.customer_id "credit" ((asPyInt (r.body.bind (fun d => dget d "amount"))).getD 0)
        (c.balance + (asPyInt (r.body.bind (fun d => dget d "amount"))).getD 0)
        (dgetDesc r.body) none).1)
      rw [hkey]
      show Inv {s with
        customers := s.customers.map
          (fun x => if x.id = r.customer_id then {x with balance := x.balance + a} else x),
        transactions := s.transactions ++
          [⟨uuid s.nextId, r.customer_id, "credit", a, dgetDesc r.body,
            c.balance + a, none, s.clock⟩],
        nextId := s.nextId + 1, clock := s.clock + 1}
      exact inv_mutate_append h hcmem hcid
        (by have := h.balance_nonneg c hcmem; omega)
        rfl (Or.inl rfl) (by simp [signedAmount]) rfl
        (by omega) (le_refl _) (by show s.clock < s.clock + 1; omega)

theorem inv_create_charge {s : State} (h : Inv s) (r : ChargeReq) :
    Inv (create_charge s r).1 := by
  rw [create_charge, check_idempotency_none h.idem_empty]
  repeat' first | exact h | split
  rename_i x1 hx1 dta d hd xv cid hpat xc c hfind xa a hA ha hlt
  obtain ⟨hcmem, hcid2⟩ := find?_customer hfind
  show Inv {s with
    customers := s.customers.map
      (fun x => if x.id = cid then {x with balance := x.balance + -a} else x),
    charges := s.charges ++
      [⟨uuid s.nextId, cid, a, dgetDesc (some d), s.clock, "succeeded"⟩],
    transactions := s.transactions ++
      [⟨uuid (s.nextId + 1), cid, "charge", a, dgetDesc (some d),
        c.balance - a, some (uuid s.nextId), s.clock + 1⟩],
    nextId := s.nextId + 1 + 1, clock := s.clock + 1 + 1}
  exact inv_mutate_append h hcmem hcid2
    (by omega) rfl (Or.inr rfl) (by simp [signedAmount])
    (by show c.balance - a = c.balance + -a; ring)
    (by omega) (by show s.clock ≤ s.clock + 1; omega)
    (by show s.clock + 1 < s.clock + 1 + 1; omega)

theorem inv_list_customer_transactions {s : State} (h : Inv s) (r : ListReq) :
    Inv (list_customer_transactions s r).1 := by
  rw [list_customer_transactions]
  repeat' first | exact h | split

theorem inv_stepOp {s : State} (h : Inv s) (r : Req) : Inv (stepOp s r).1 := by
  cases r with
  | create r => exact inv_create_customer h r
  | credit r => exact inv_credit_customer h r
  | charge r => exact inv_create_charge h r
  | list r => exact inv_list_customer_transactions h r

/-- Every reachable state satisfies the global invariant. -/
theorem inv_reachable {s : State} (h : Reachable s) : Inv s := by
  induction h with
  | base => exact inv_startState
  | next s r _ ih => exact inv_stepOp ih r

/-! ### Concrete scenario -/

theorem reachable_sA : Reachable sA := Reachable.next _ _ Reachable.base

theorem reachable_sB : Reachable sB := Reachable.next _ _ reachable_sA

theorem reachable_sC : Reachable sC := Reachable.next _ _ reachable_sB

/-! ### Claims -/

/-- C1: after any sequence of operations, every customer's balance equals the
sum of the amounts of that customer's credit records minus the sum of the
amounts of that customer's charge records, and the balance is nonnegative.
The invariant is preserved by every operation because it holds in every
reachable state. -/
theorem c1_balance_invariant {s : State} (hs : Reachable s) :
    ∀ c ∈ s.customers,
      c.balance = creditSum s.transactions c.id - chargeSum s.transactions c.id ∧
        0 ≤ c.balance := by
  intro c hc
  have h := inv_reachable hs
  exact ⟨h.balance_eq c hc, h.balance_nonneg c hc⟩

/-- Witness for C1 at the concrete state `sB`. -/
theorem c1_balance_invariant_witness :
    adaB.balance = creditSum sB.transactions adaB.id - chargeSum sB.transactions adaB.id ∧
      0 ≤ adaB.balance :=
  c1_balance_invariant reachable_sB adaB (by decide)

/-- C5: in every reachable state, every customer's records (filtered from the
ledger, which lists them in strictly increasing `created_at` order) replay
from 0: each `balance_after` equals the previous running balance plus the
record's signed amount, and the final running balance is the customer's
current balance — so each `balance_after` was the balance at the instant its
record was appended. -/
theorem c5_balance_after_consistent {s : State} (hs : Reachable s) :
    ∀ c ∈ s.customers,
      (txnsOf s.transactions c.id).Pairwise (fun a b => a.created_at < b.created_at) ∧
      chainOk 0 (txnsOf s.transactions c.id) = true ∧
      lastBal 0 (txnsOf s.transactions c.id) = c.balance := by
  intro c hc
  have h := inv_reachable hs
  exact ⟨List.Pairwise.sublist (List.filter_sublist _) h.times_sorted,
    h.chain c hc, h.lastb c hc⟩

/-- Witness for C5 at the concrete state `sC`. -/
theorem c5_balance_after_consistent_witness :
    (txnsOf sC.transactions adaC.id).Pairwise (fun a b => a.created_at < b.created_at) ∧
    chainOk 0 (txnsOf sC.transactions adaC.id) = true ∧
    lastBal 0 (txnsOf sC.transactions adaC.id) = adaC.balance :=
  c5_balance_after_consistent reachable_sC adaC (by decide)

/-- C2 is a code bug: replaying the identical credit with the identical
idempotency key re-executes the operation — the second response body differs
from the first (balance 10000 vs 5000), two `TransactionRecord`s are appended
across the two invocations, and the balance is mutated twice.  The cause:
`check_idempotency` reads the header named `Idempotency` while the client
sends `Idempotency-Key`, and `store_idempotent_response` is never called, so
the `IDEMPOTENCY_STORE` stays empty forever. -/
theorem c2_idempotent_replay_reexecutes :
    (credit_customer sFirst reqCreditIdem).2.body ≠ (credit_customer sA reqCreditIdem).2.body ∧
    (credit_customer sFirst reqCreditIdem).1.transactions.length = 2 ∧
    (credit_customer sFirst reqCreditIdem).1.customers
      = [⟨uuid 0, "Ada", "ada@example.com", 0, 10000⟩] := by decide

/-- C7 is a code bug on its storage clause: the credit succeeds (status 200,
balance increased by exactly the amount, exactly one credit record appended
with the new balance and no related id), but nothing is stored under the
supplied idempotency key — `store_idempotent_response` is never invoked, so
the `IDEMPOTENCY_STORE` is still empty afterwards. -/
theorem c7_credit_never_stores_response :
    (credit_customer sA reqCredit5000K).2 = ⟨.customer adaB, 200⟩ ∧
    (credit_customer sA reqCredit5000K).1.customers = [adaB] ∧
    (credit_customer sA reqCredit5000K).1.transactions.length = 1 ∧
    ((credit_customer sA reqCredit5000K).1.transactions.map
      (fun t => (t.kind, t.amount, t.balance_after, t.related_id)))
        = [("credit", 5000, 5000, none)] ∧
    (credit_customer sA reqCredit5000K).1.idem = [] := by decide

/-- C4 is a code bug: with two records on the ledger and `limit=1` the
handler answers 200 with both records — the slice `customer_txns[:limit]`
on line 397 of `src/api/app.py` is computed but its result is discarded,
so the limit is never applied. -/
theorem c4_limit_not_applied :
    (list_customer_transactions sC reqList1).2.status = 200 ∧
    respListLength (list_customer_transactions sC reqList1).2.body = 2 := by decide

/-- C8 is a code bug: when email is missing (or any non-string), the
validator evaluates `email.strip()` on a non-string — its condition uses
`and` where the name check uses `or` — raising `AttributeError`, so the
request dies with status 500 instead of the claimed invalid_request 400;
no customer is created. -/
theorem c8_missing_email_crashes :
    create_customer startState reqNoEmail = (startState, ⟨.crash, 500⟩) := by decide

/-- C9 counterexample: a credit whose description field is present but is not
a string — it is JSON null — is not rejected: it succeeds with status 200,
mutates the balance and appends a ledger record, because `data.get` turns a
null field into Python `None` and the validator treats `None` as absent. -/
theorem c9_null_description_accepted :
    (credit_customer sA reqCreditNullDesc).2.status = 200 ∧
    (credit_customer sA reqCreditNullDesc).1.transactions.length = 1 := by decide

/-- C3: in any reachable state, a charge request for an existing customer
whose integer amount exceeds the current balance is answered with the
insufficient_funds error, status 400, and the state — balance and ledger —
is completely unchanged. -/
theorem c3_insufficient_funds {s : State} (hs : Reachable s) (r : ChargeReq)
    {d : Dict} (hb : r.body = some d)
    {cid : String} (hcid : dget d "customer_id" = some (.str cid))
    {c : Customer} (hc : s.customers.find? (fun x => x.id == cid) = some c)
    {a : Int} (ha : dget d "amount" = some (.int a)) (hgt : c.balance < a) :
    create_charge s r
      = (s, ⟨.error "insufficient_funds" "Amount exceeds customer's balance.", 400⟩) := by
  have h := inv_reachable hs
  have hpos : ¬ a ≤ 0 := by
    have := h.balance_nonneg c (List.mem_of_find?_eq_some hc)
    omega
  simp only [create_charge, check_idempotency_none h.idem_empty, hb, hcid, hc, ha,
    asPyInt, if_neg hpos, if_pos hgt]

/-- Witness for C3: charging 6000 against a balance of 5000. -/
theorem c3_insufficient_funds_witness :
    create_charge sB reqCharge6000
      = (sB, ⟨.error "insufficient_funds" "Amount exceeds customer's balance.", 400⟩) :=
  c3_insufficient_funds reachable_sB reqCharge6000 rfl rfl rfl rfl (by decide)

/-- C6: in any reachable state, a charge request for an existing customer
with a positive integer amount not exceeding the balance decreases that
customer's balance by the amount, appends exactly one charge record whose
`related_id` is the new charge's id and whose `balance_after` is the new
balance, and returns the charge record with status 201. -/
theorem c6_charge_success {s : State} (hs : Reachable s) (r : ChargeReq)
    {d : Dict} (hb : r.body = some d)
    {cid : String} (hcid : dget d "customer_id" = some (.str cid))
    {c : Customer} (hc : s.customers.find? (fun x => x.id == cid) = some c)
    {a : Int} (ha : dget d "amount" = some (.int a)) (hpos : 0 < a) (hle : a ≤ c.balance) :
    ∃ ch : Charge, ∃ t : Txn,
      create_charge s r = ({s with
          customers := s.customers.map
            (fun x => if x.id = cid then {x with balance := x.balance - a} else x),
          charges := s.charges ++ [ch],
          transactions := s.transactions ++ [t],
          nextId := s.nextId + 2, clock := s.clock + 2},
        ⟨.charge ch, 201⟩) ∧
      ch.customer_id = cid ∧ ch.amount = a ∧
      t.customer_id = cid ∧ t.kind = "charge" ∧ t.amount = a ∧
      t.related_id = some ch.id ∧ t.balance_after = c.balance - a := by
  refine ⟨⟨uuid s.nextId, cid, a, dgetDesc (some d), s.clock, "succeeded"⟩,
    ⟨uuid (s.nextId + 1), cid, "charge", a, dgetDesc (some d), c.balance - a,
      some (uuid s.nextId), s.clock + 1⟩, ?_, rfl, rfl, rfl, rfl, rfl, rfl, rfl⟩
  have h := inv_reachable hs
  have ha0 : ¬ a ≤ 0 := by omega
  have hlt : ¬ c.balance < a := by omega
  simp only [create_charge, check_idempotency_none h.idem_empty, hb, hcid, hc, ha,
    asPyInt, if_neg ha0, if_neg hlt]
  rfl

/-- Witness for C6: charging 2000 against a balance of 5000. -/
theorem c6_charge_success_witness :
    ∃ ch : Charge, ∃ t : Txn,
      create_charge sB reqCharge2000 = ({sB with
          customers := sB.customers.map
            (fun x => if x.id = uuid 0 then {x with balance := x.balance - 2000} else x),
          charges := sB.charges ++ [ch],
          transactions := sB.transactions ++ [t],
          nextId := sB.nextId + 2, clock := sB.clock + 2},
        ⟨.charge ch, 201⟩) ∧
      ch.customer_id = uuid 0 ∧ ch.amount = 2000 ∧
      t.customer_id = uuid 0 ∧ t.kind = "charge" ∧ t.amount = 2000 ∧
      t.related_id = some ch.id ∧ t.balance_after = adaB.balance - 2000 :=
  c6_charge_success reachable_sB reqCharge2000 rfl rfl rfl rfl (by decide) (by decide)

/-- C9 (amended): in any reachable state, a credit request targeting an
existing customer whose description field is present with a non-null value
that is not a string, or is an empty or whitespace-only string, is answered
with an invalid_request error, status 400, and the state is unchanged — no
balance mutation and no ledger append. -/
theorem c9_bad_description_rejected {s : State} (hs : Reachable s) (r : CreditReq)
    {d : Dict} (hb : r.body = some d)
    {c : Customer} (hc : s.customers.find? (fun x => x.id == r.customer_id) = some c)
    {v : JVal} (hv : dget d "description" = some v) (hbad : bad_description v = true) :
    ∃ msg, credit_customer s r = (s, ⟨.error "invalid_request" msg, 400⟩) := by
  have h := inv_reachable hs
  have hval : ∃ msg, validate_add_funds_payload r.body = some msg := by
    rw [hb, validate_add_funds_payload]
    split
    · exact ⟨_, rfl⟩
    next a hA =>
      split
      · exact ⟨_, rfl⟩
      next ha =>
        rw [hv]
        cases v with
        | null => simp [bad_description] at hbad
        | str t =>
          have hts : (pyStrip t == "") = true := by simpa [bad_description] using hbad
          exact ⟨"Description must be non-empty string.", if_pos hts⟩
        | int n => exact ⟨_, rfl⟩
        | bool b => exact ⟨_, rfl⟩
  obtain ⟨msg, hmsg⟩ := hval
  refine ⟨msg, ?_⟩
  simp only [credit_customer, check_idempotency_none h.idem_empty, hc, hmsg]

/-- Witness for C9 (amended): an integer description is rejected. -/
theorem c9_bad_description_rejected_witness :
    ∃ msg, credit_customer sA reqCreditIntDesc = (sA, ⟨.error "invalid_request" msg, 400⟩) :=
  c9_bad_description_rejected reachable_sA reqCreditIntDesc rfl rfl rfl (by decide)

/-- A balance-only rewriting with delta 0 is the identity. -/
theorem map_balance_zero (l : List Customer) (t : String) :
    l.map (fun x => if x.id = t then {x with balance := x.balance + 0} else x) = l := by
  induction l with
  | nil => rfl
  | cons c cs ih =>
    simp only [List.map_cons, ih]
    congr 1
    cases c with
    | mk i n e ca b => by_cases hc : i = t <;> simp [hc]

/-- C10: every Credit and every Charge call — successful or not — rewrites
the customer table pointwise, changing at most the balance of the customer
the request targets: every customer keeps its id, name, email and created_at,
and every customer other than the targeted one keeps its whole record. -/
theorem c10_frame (s : State) (rc : CreditReq) (rg : ChargeReq) :
    (∃ δ : Int, (credit_customer s rc).1.customers
      = s.customers.map
          (fun x => if x.id = rc.customer_id then {x with balance := x.balance + δ} else x)) ∧
    (∃ δ : Int, (create_charge s rg).1.customers
      = s.customers.map
          (fun x => if x.id = charge_target rg then {x with balance := x.balance + δ} else x)) := by
  constructor
  · rw [credit_customer]
    repeat' first
      | exact ⟨0, (map_balance_zero s.customers rc.customer_id).symm⟩
      | exact ⟨_, rfl⟩
      | split
  · rw [create_charge]
    repeat' first
      | exact ⟨0, (map_balance_zero s.customers (charge_target rg)).symm⟩
      | split
    rename_i x1 hx1 dta d hd xv cid hpat xc c hfind xa a hA ha hlt
    have htg : charge_target rg = cid := by simp [charge_target, hd, hpat]
    refine ⟨-a, ?_⟩
    simp only [htg]
    rfl

/-- Witness for C10 at a concrete credit and a concrete charge. -/
theorem c10_frame_witness :
    (∃ δ : Int, (credit_customer sB reqCredit2000).1.customers
      = sB.customers.map
          (fun x => if x.id = reqCredit2000.customer_id then
            {x with balance := x.balance + δ} else x)) ∧
    (∃ δ : Int, (create_charge sB reqCharge2000).1.customers
      = sB.customers.map
          (fun x => if x.id = charge_target reqCharge2000 then
            {x with balance := x.balance + δ} else x)) :=
  c10_frame sB reqCredit2000 reqCharge2000

end Jots
